import Mathlib

/-!
Shallow embedding of the page-extraction layer of the markitdown repository:
the DOCX converter (`converters/_docx_converter.py`) and the PDF converter
(`converters/_pdf_converter.py`).

Text is modelled as `List Char` (Python `str`), converter keyword arguments
as an association list of `String × PyVal` (Python `**kwargs` with dynamic
values), and the external parsing libraries (mammoth / python-docx /
pdfminer) as parameters of the convert functions: the DOCX convert receives
the Markdown rendering, the title, and the soft-page-break fragments the
external libraries would produce; the PDF convert receives the per-page raw
texts (with `none` standing for a page whose low-level extraction raises)
and the whole-document extraction.
-/

namespace Markitdown

/-- Python runtime values that may be passed as a converter option. -/
inductive PyVal where
  | pyNone : PyVal
  | pyBool (b : Bool) : PyVal
  | pyInt (n : Int) : PyVal
  | pyStr (s : List Char) : PyVal
  | pyList (l : List PyVal) : PyVal

/-- Python truthiness: `None`, `False`, `0`, empty string and empty list are
falsy; everything else is truthy. -/
def pyTruthy : PyVal → Bool
  | PyVal.pyNone => false
  | PyVal.pyBool b => b
  | PyVal.pyInt n => decide (n ≠ 0)
  | PyVal.pyStr s => decide (s ≠ [])
  | PyVal.pyList [] => false
  | PyVal.pyList (_ :: _) => true

/-- `kwargs.get(key, dflt)`: first binding of `key` in the keyword-argument
list, or the default when absent. -/
def kwargsGet (kwargs : List (String × PyVal)) (key : String) (dflt : PyVal) : PyVal :=
  match kwargs.find? (fun kv => kv.fst == key) with
  | some kv => kv.snd
  | none => dflt

/-- The option key read by both converters (`kwargs.get("extract_pages", False)`). -/
def extractPagesKey : String := "extract_pages"

/-- The legacy option key named by the spec; it does not occur in either
converter's code. -/
def returnPagesKey : String := "return_pages"

/-- `PageInfo` from `_base_converter`: one numbered page of output. -/
structure PageInfo where
  page_number : Nat
  content : List Char
deriving DecidableEq

/-- `DocumentConverterResult`: markdown text, optional title, optional pages. -/
structure DocumentConverterResult where
  markdown : List Char
  title : Option (List Char)
  pages : Option (List PageInfo)
deriving DecidableEq

/-- Offset of the first position of the suffix `s` at which `sub` starts
(substring scan underlying Python `str.find`). -/
def findInSuffix (sub : List Char) : List Char → Option Nat
  | [] => if sub = [] then some 0 else none
  | c :: rest =>
    if sub.isPrefixOf (c :: rest) then some 0
    else (findInSuffix sub rest).map (fun q => q + 1)

/-- Python `md.find(sub, start)`: smallest index `e ≥ start` where `sub`
occurs in `md`, as `some e`; `none` encodes Python's `-1`. -/
def str_find (md sub : List Char) (start : Nat) : Option Nat :=
  if start ≤ md.length then (findInSuffix sub (md.drop start)).map (fun q => q + start)
  else none

/-- The loop body of `split_markdown_by_following_text` in
`_docx_converter.py` (lines 113-133): walk the marker list with a cursor
`cur` and next page number `pn`; a marker not found at or after the cursor
is skipped; a marker found at `e` emits the span `md[cur:e]` and moves the
cursor to `e`; after the markers, a nonempty remainder becomes a final page. -/
def splitAux (md : List Char) : List (List Char) → Nat → Nat → List PageInfo
  | [], cur, pn => if cur < md.length then [⟨pn, md.drop cur⟩] else []
  | ft :: fts, cur, pn =>
    match str_find md ft cur with
    | none => splitAux md fts cur pn
    | some e => ⟨pn, (md.take e).drop cur⟩ :: splitAux md fts e (pn + 1)

/-- `split_markdown_by_following_text(markdown_text, following_texts)`:
cursor starts at 0, page numbers at 1. -/
def split_markdown_by_following_text (md : List Char) (fts : List (List Char)) : List PageInfo :=
  splitAux md fts 0 1

/-- The `no_text_delimeter` sentinel of `_docx_converter.py` line 85. -/
def no_text_delimeter : List Char := "<No text>".data

/-- `number_of_chracters_delimeter` of `_docx_converter.py` line 86. -/
def number_of_chracters_delimeter : Nat := 20

/-- `find_paragraph_soft_page_breaks`: each rendered page break contributes
the first 20 characters of its following paragraph fragment's text, or the
sentinel when there is no following fragment. The input models, in document
order, the optional following-fragment text of every rendered page break
that python-docx reports. -/
def find_paragraph_soft_page_breaks (breaks : List (Option (List Char))) : List (List Char) :=
  breaks.map (fun b => (b.getD no_text_delimeter).take number_of_chracters_delimeter)

/-- `DocxConverter.convert` after the dependency check (lines 76-157):
`md` and `title` stand for the Markdown rendering and title that
mammoth + the HTML converter produce from the stream (both branches invoke
that pipeline with identical inputs, so they receive the same values);
`breaks` stands for the soft-page-break fragments python-docx reports. -/
def docxConvertBody (kwargs : List (String × PyVal)) (md : List Char)
    (title : Option (List Char)) (breaks : List (Option (List Char))) :
    DocumentConverterResult :=
  if pyTruthy (kwargsGet kwargs extractPagesKey (PyVal.pyBool false)) then
    ⟨md, title,
      some (split_markdown_by_following_text md (find_paragraph_soft_page_breaks breaks))⟩
  else
    ⟨md, title, none⟩

/-- Python whitespace for `str.strip()` (ASCII range). -/
def pyIsSpace (c : Char) : Bool :=
  c = ' ' || c = '\t' || c = '\n' || c = '\r' || c = '\x0b' || c = '\x0c'

/-- Python `text.strip()`: drop leading and trailing whitespace. -/
def pyStrip (s : List Char) : List Char :=
  ((s.dropWhile pyIsSpace).reverse.dropWhile pyIsSpace).reverse

/-- The per-page loop of `PdfConverter._extract_pages` (lines 111-127):
page `n` gets the stripped text of the n-th physical page; a `none` entry
models a page whose low-level extraction raises, which aborts the loop
(the partial list built so far is discarded by the enclosing handler, so
the loop is modelled as all-or-nothing). -/
def extractPagesLoop : List (Option (List Char)) → Nat → Option (List PageInfo)
  | [], _ => some []
  | none :: _, _ => none
  | some t :: rest, n => (extractPagesLoop rest (n + 1)).map (fun ps => ⟨n, pyStrip t⟩ :: ps)

/-- `PdfConverter._extract_pages` (lines 96-142): `listOk = false` models a
failure before or while listing the pages (seek / `PDFPage.get_pages`);
on any failure the partial results are discarded and the fallback is a
single page numbered 1 holding the stripped whole-document extraction. -/
def pdfExtractPages (listOk : Bool) (texts : List (Option (List Char)))
    (fullText : List Char) : List PageInfo :=
  match (if listOk then extractPagesLoop texts 1 else none) with
  | some ps => ps
  | none => [⟨1, pyStrip fullText⟩]

/-- The page separator `"\n\n"` of `PdfConverter.convert` line 85. -/
def nlnl : List Char := "\n\n".data

/-- `PdfConverter.convert` after the dependency check (lines 78-94):
`fullText` stands for `pdfminer.high_level.extract_text(file_stream)`,
`texts` for the raw per-page texts of the per-page device. The paginated
branch joins the page contents with a blank line; the plain branch returns
the whole-document extraction with no title and no pages. -/
def pdfConvert (kwargs : List (String × PyVal)) (listOk : Bool)
    (texts : List (Option (List Char))) (fullText : List Char) :
    DocumentConverterResult :=
  if pyTruthy (kwargsGet kwargs extractPagesKey (PyVal.pyBool false)) then
    ⟨List.intercalate nlnl ((pdfExtractPages listOk texts fullText).map PageInfo.content),
      none, some (pdfExtractPages listOk texts fullText)⟩
  else
    ⟨fullText, none, none⟩

/-- The preserved import failure (`_dependency_exc_info`), abstract. -/
structure ImportFailure where
  message : List Char
deriving DecidableEq

/-- Modelled from the spec: `MissingDependencyException` and the text of
`MISSING_DEPENDENCY_MESSAGE` live in `_exceptions.py`, which is not among
the source files; per the spec the raised error identifies the adapter,
the expected file extension and the feature name, and carries the
original import failure as its cause. The field values are the literals
each converter passes in `src/`. -/
inductive ConversionError where
  | missingDependency (converter : List Char) (extension : List Char)
      (feature : List Char) (cause : ImportFailure) : ConversionError
deriving DecidableEq

/-- `DocxConverter.convert` including the dependency check of lines 62-74:
with a stored import failure it raises before doing anything else. -/
def docxConvertChecked (dep : Option ImportFailure) (kwargs : List (String × PyVal))
    (md : List Char) (title : Option (List Char)) (breaks : List (Option (List Char))) :
    Except ConversionError DocumentConverterResult :=
  match dep with
  | some e =>
    Except.error (ConversionError.missingDependency "DocxConverter".data ".docx".data "docx".data e)
  | none => Except.ok (docxConvertBody kwargs md title breaks)

/-- `PdfConverter.convert` including the dependency check of lines 62-74. -/
def pdfConvertChecked (dep : Option ImportFailure) (kwargs : List (String × PyVal))
    (listOk : Bool) (texts : List (Option (List Char))) (fullText : List Char) :
    Except ConversionError DocumentConverterResult :=
  match dep with
  | some e =>
    Except.error (ConversionError.missingDependency "PdfConverter".data ".pdf".data "pdf".data e)
  | none => Except.ok (pdfConvert kwargs listOk texts fullText)

/-- Accepted extensions of `_docx_converter.py` line 26. -/
def docxAcceptedFileExtensions : List (List Char) := [".docx".data]

/-- Accepted mimetype prefixes of `_docx_converter.py` lines 22-24. -/
def docxAcceptedMimeStarts : List (List Char) :=
  ["application/vnd.openxmlformats-officedocument.wordprocessingml.document".data]

/-- Accepted extensions of `_pdf_converter.py` line 30. -/
def pdfAcceptedFileExtensions : List (List Char) := [".pdf".data]

/-- Accepted mimetype prefixes of `_pdf_converter.py` lines 25-28. -/
def pdfAcceptedMimeStarts : List (List Char) :=
  ["application/pdf".data, "application/x-pdf".data]

/-- `(stream_info.mimetype or "").lower()`: absent field becomes the empty
string, then lowercased. -/
def lowerOrEmpty (s : Option (List Char)) : List Char :=
  (s.getD []).map Char.toLower

/-- `DocxConverter.accepts` (lines 38-54): extension membership or mimetype
prefix match; it never consults the dependency state. -/
def docxAccepts (mimetype extension : Option (List Char)) : Bool :=
  decide (lowerOrEmpty extension ∈ docxAcceptedFileExtensions) ||
    docxAcceptedMimeStarts.any (fun p => p.isPrefixOf (lowerOrEmpty mimetype))

/-- `PdfConverter.accepts` (lines 38-54). -/
def pdfAccepts (mimetype extension : Option (List Char)) : Bool :=
  decide (lowerOrEmpty extension ∈ pdfAcceptedFileExtensions) ||
    pdfAcceptedMimeStarts.any (fun p => p.isPrefixOf (lowerOrEmpty mimetype))

/-- A string with neither leading nor trailing Python whitespace. -/
def noEdgeSpace (s : List Char) : Bool :=
  (match s.head? with
   | some c => !pyIsSpace c
   | none => true) &&
  (match s.getLast? with
   | some c => !pyIsSpace c
   | none => true)

/-! Helper lemmas about the substring search. -/

theorem findInSuffix_some (sub : List Char) (s : List Char) (q : Nat)
    (h : findInSuffix sub s = some q) : q + sub.length ≤ s.length := by
  induction s generalizing q with
  | nil =>
    simp only [findInSuffix] at h
    split at h
    · cases h
      simp_all
    · cases h
  | cons c rest ih =>
    simp only [findInSuffix] at h
    split at h
    next hp =>
      cases h
      have hle := (List.isPrefixOf_iff_prefix.mp hp).length_le
      simpa using hle
    next =>
      rw [Option.map_eq_some'] at h
      obtain ⟨a, ha, hq⟩ := h
      have := ih a ha
      subst hq
      simp only [List.length_cons]
      omega

theorem str_find_bounds (md sub : List Char) (start e : Nat)
    (h : str_find md sub start = some e) :
    start ≤ e ∧ e + sub.length ≤ md.length := by
  unfold str_find at h
  split at h
  next hle =>
    rw [Option.map_eq_some'] at h
    obtain ⟨q, hq, he⟩ := h
    have hb := findInSuffix_some sub (md.drop start) q hq
    rw [List.length_drop] at hb
    subst he
    constructor
    · omega
    · omega
  next => cases h

theorem drop_take_append_drop (md : List Char) (cur e : Nat) (h1 : cur ≤ e)
    (h2 : cur ≤ md.length) :
    (md.take e).drop cur ++ md.drop e = md.drop cur := by
  conv_rhs => rw [← List.take_append_drop e md]
  rw [List.drop_append_eq_append_drop]
  have h3 : cur - (md.take e).length = 0 := by
    rw [List.length_take]
    omega
  rw [h3, List.drop_zero]

/-! Helper lemmas about the DOCX marker-correlation splitter. -/

theorem splitAux_join (md : List Char) (fts : List (List Char)) (cur pn : Nat)
    (hcur : cur ≤ md.length) :
    ((splitAux md fts cur pn).map PageInfo.content).flatten = md.drop cur := by
  induction fts generalizing cur pn with
  | nil =>
    simp only [splitAux]
    split
    next => simp
    next h =>
      rw [List.drop_eq_nil_of_le (by omega)]
      simp
  | cons ft fts ih =>
    cases hf : str_find md ft cur with
    | none =>
      simp only [splitAux, hf]
      exact ih cur pn hcur
    | some e =>
      obtain ⟨hce, heb⟩ := str_find_bounds md ft cur e hf
      simp only [splitAux, hf, List.map_cons, List.flatten_cons]
      rw [ih e (pn + 1) (by omega)]
      exact drop_take_append_drop md cur e hce hcur

theorem splitAux_numbers (md : List Char) (fts : List (List Char)) (cur pn : Nat) :
    (splitAux md fts cur pn).map PageInfo.page_number =
      List.range' pn (splitAux md fts cur pn).length := by
  induction fts generalizing cur pn with
  | nil =>
    simp only [splitAux]
    split
    · simp [List.range']
    · simp
  | cons ft fts ih =>
    cases hf : str_find md ft cur with
    | none =>
      simp only [splitAux, hf]
      exact ih cur pn
    | some e =>
      simp only [splitAux, hf, List.map_cons, List.length_cons]
      rw [List.range'_succ pn _ 1, ih e (pn + 1)]

/-! Helper lemmas about the PDF per-page loop. -/

theorem extractPagesLoop_numbers (texts : List (Option (List Char))) (n : Nat)
    (ps : List PageInfo) (h : extractPagesLoop texts n = some ps) :
    ps.map PageInfo.page_number = List.range' n ps.length := by
  induction texts generalizing n ps with
  | nil =>
    simp only [extractPagesLoop] at h
    cases h
    simp
  | cons t rest ih =>
    cases t with
    | none => simp [extractPagesLoop] at h
    | some s =>
      simp only [extractPagesLoop, Option.map_eq_some'] at h
      obtain ⟨a, ha, hq⟩ := h
      subst hq
      simp only [List.map_cons, List.length_cons]
      rw [List.range'_succ n _ 1, ih (n + 1) a ha]

theorem extractPagesLoop_none (texts : List (Option (List Char))) (n : Nat)
    (h : none ∈ texts) : extractPagesLoop texts n = none := by
  induction texts generalizing n with
  | nil => cases h
  | cons t rest ih =>
    cases t with
    | none => rfl
    | some s =>
      have hr : none ∈ rest := by
        rcases List.mem_cons.mp h with h1 | h1
        · cases h1
        · exact h1
      simp [extractPagesLoop, ih (n + 1) hr]

theorem extractPagesLoop_content (texts : List (Option (List Char))) (n : Nat)
    (ps : List PageInfo) (h : extractPagesLoop texts n = some ps) (pg : PageInfo)
    (hm : pg ∈ ps) : ∃ t, pg.content = pyStrip t := by
  induction texts generalizing n ps with
  | nil =>
    simp only [extractPagesLoop] at h
    cases h
    cases hm
  | cons t rest ih =>
    cases t with
    | none => simp [extractPagesLoop] at h
    | some s =>
      simp only [extractPagesLoop, Option.map_eq_some'] at h
      obtain ⟨a, ha, hq⟩ := h
      subst hq
      rcases List.mem_cons.mp hm with h1 | h1
      · exact ⟨s, by rw [h1]⟩
      · exact ih (n + 1) a ha h1

theorem pdfExtractPages_numbers (listOk : Bool) (texts : List (Option (List Char)))
    (fullText : List Char) :
    (pdfExtractPages listOk texts fullText).map PageInfo.page_number =
      List.range' 1 (pdfExtractPages listOk texts fullText).length := by
  unfold pdfExtractPages
  cases listOk with
  | false => simp [List.range']
  | true =>
    cases h : extractPagesLoop texts 1 with
    | none => simp [h, List.range']
    | some ps =>
      simp only [if_true, h]
      exact extractPagesLoop_numbers texts 1 ps h

theorem pdfExtractPages_content (listOk : Bool) (texts : List (Option (List Char)))
    (fullText : List Char) (pg : PageInfo)
    (h : pg ∈ pdfExtractPages listOk texts fullText) :
    ∃ t, pg.content = pyStrip t := by
  unfold pdfExtractPages at h
  cases listOk with
  | false =>
    simp at h
    exact ⟨fullText, by rw [h]⟩
  | true =>
    cases hl : extractPagesLoop texts 1 with
    | none =>
      rw [hl] at h
      simp at h
      exact ⟨fullText, by rw [h]⟩
    | some ps =>
      rw [hl] at h
      simp at h
      exact extractPagesLoop_content texts 1 ps hl pg h

/-! Helper lemmas about `pyStrip` and `noEdgeSpace`. -/

theorem dropWhile_head?_not (p : Char → Bool) (l : List Char) (c : Char)
    (h : (l.dropWhile p).head? = some c) : p c = false := by
  induction l with
  | nil => simp [List.dropWhile_nil] at h
  | cons a l2 ih =>
    cases hp : p a with
    | true =>
      rw [List.dropWhile_cons, if_pos hp] at h
      exact ih h
    | false =>
      rw [List.dropWhile_cons, if_neg (by simp [hp])] at h
      simp only [List.head?_cons, Option.some.injEq] at h
      subst h
      exact hp

theorem dropWhile_getLast? (p : Char → Bool) (l : List Char)
    (h : l.dropWhile p ≠ []) : (l.dropWhile p).getLast? = l.getLast? := by
  induction l with
  | nil => simp [List.dropWhile_nil] at h
  | cons a l2 ih =>
    cases hp : p a with
    | false => rw [List.dropWhile_cons, if_neg (by simp [hp])]
    | true =>
      rw [List.dropWhile_cons, if_pos hp] at h ⊢
      have hl : l2 ≠ [] := by
        intro he
        subst he
        simp [List.dropWhile_nil] at h
      rw [ih h]
      cases l2 with
      | nil => cases hl rfl
      | cons b l3 => rw [List.getLast?_cons_cons]

theorem pyStrip_last (t : List Char) (c : Char) (h : (pyStrip t).getLast? = some c) :
    pyIsSpace c = false := by
  unfold pyStrip at h
  rw [List.getLast?_reverse] at h
  exact dropWhile_head?_not _ _ _ h

theorem pyStrip_head (t : List Char) (c : Char) (h : (pyStrip t).head? = some c) :
    pyIsSpace c = false := by
  unfold pyStrip at h
  rw [List.head?_reverse] at h
  have hne : (t.dropWhile pyIsSpace).reverse.dropWhile pyIsSpace ≠ [] := by
    intro he
    rw [he] at h
    simp at h
  rw [dropWhile_getLast? _ _ hne, List.getLast?_reverse] at h
  exact dropWhile_head?_not _ _ _ h

theorem noEdgeSpace_pyStrip (t : List Char) : noEdgeSpace (pyStrip t) = true := by
  unfold noEdgeSpace
  cases hh : (pyStrip t).head? with
  | none =>
    cases hl : (pyStrip t).getLast? with
    | none => simp
    | some c => simp [pyStrip_last t c hl]
  | some c =>
    cases hl : (pyStrip t).getLast? with
    | none => simp [pyStrip_head t c hh]
    | some d => simp [pyStrip_head t c hh, pyStrip_last t d hl]

theorem dropWhile_eq_self_of_head (p : Char → Bool) (l : List Char)
    (h : ∀ c, l.head? = some c → p c = false) : l.dropWhile p = l := by
  cases l with
  | nil => rfl
  | cons a l2 =>
    have ha := h a rfl
    rw [List.dropWhile_cons, if_neg (by simp [ha])]

theorem pyStrip_noEdge (s : List Char) (h : noEdgeSpace s = true) : pyStrip s = s := by
  unfold noEdgeSpace at h
  rw [Bool.and_eq_true] at h
  obtain ⟨h1, h2⟩ := h
  unfold pyStrip
  have e1 : s.dropWhile pyIsSpace = s := by
    apply dropWhile_eq_self_of_head
    intro c hc
    rw [hc] at h1
    simpa using h1
  rw [e1]
  have e2 : s.reverse.dropWhile pyIsSpace = s.reverse := by
    apply dropWhile_eq_self_of_head
    intro c hc
    rw [List.head?_reverse] at hc
    rw [hc] at h2
    simpa using h2
  rw [e2, List.reverse_reverse]

theorem pyStrip_all_space (t : List Char) (h : ∀ c ∈ t, pyIsSpace c = true) :
    pyStrip t = [] := by
  have h1 : t.dropWhile pyIsSpace = [] := List.dropWhile_eq_nil_iff.mpr h
  simp [pyStrip, h1]

/-! Helper lemmas relating the convert functions to their pages. -/

theorem docxConvertBody_pages (kwargs : List (String × PyVal)) (md : List Char)
    (title : Option (List Char)) (breaks : List (Option (List Char))) (ps : List PageInfo)
    (h : (docxConvertBody kwargs md title breaks).pages = some ps) :
    ps = split_markdown_by_following_text md (find_paragraph_soft_page_breaks breaks) := by
  unfold docxConvertBody at h
  split at h <;> simp_all

theorem pdfConvert_pages (kwargs : List (String × PyVal)) (listOk : Bool)
    (texts : List (Option (List Char))) (fullText : List Char) (qs : List PageInfo)
    (h : (pdfConvert kwargs listOk texts fullText).pages = some qs) :
    qs = pdfExtractPages listOk texts fullText := by
  unfold pdfConvert at h
  split at h <;> simp_all

/-- C1: for every conversion with `extract_pages` truthy, the DOCX result
carries a pages list whose contents, concatenated in sequence order (which
is page-number order) with no separator, equal the result's markdown
exactly; the PDF result carries a pages list whose contents joined with
the separator `"\n\n"` equal the result's markdown exactly. -/
theorem C1_concatenation_invariant (kwargs : List (String × PyVal)) (md : List Char)
    (title : Option (List Char)) (breaks : List (Option (List Char)))
    (listOk : Bool) (texts : List (Option (List Char))) (fullText : List Char)
    (htruthy : pyTruthy (kwargsGet kwargs extractPagesKey (PyVal.pyBool false)) = true) :
    (∃ ps, (docxConvertBody kwargs md title breaks).pages = some ps ∧
      (ps.map PageInfo.content).flatten = (docxConvertBody kwargs md title breaks).markdown) ∧
    (∃ qs, (pdfConvert kwargs listOk texts fullText).pages = some qs ∧
      List.intercalate nlnl (qs.map PageInfo.content) =
        (pdfConvert kwargs listOk texts fullText).markdown) := by
  constructor
  · refine ⟨split_markdown_by_following_text md (find_paragraph_soft_page_breaks breaks),
      ?_, ?_⟩
    · simp [docxConvertBody, htruthy]
    · have hj := splitAux_join md (find_paragraph_soft_page_breaks breaks) 0 1 (Nat.zero_le _)
      simp only [docxConvertBody, htruthy, if_true]
      simpa [split_markdown_by_following_text] using hj
  · refine ⟨pdfExtractPages listOk texts fullText, ?_, ?_⟩
    · simp [pdfConvert, htruthy]
    · simp [pdfConvert, htruthy]

/-- Witness for C1 at a concrete DOCX and PDF conversion. -/
theorem C1_concatenation_invariant_witness :
    (∃ ps, (docxConvertBody [(extractPagesKey, PyVal.pyBool true)] "aXb".data none
        [some "X".data]).pages = some ps ∧
      (ps.map PageInfo.content).flatten =
        (docxConvertBody [(extractPagesKey, PyVal.pyBool true)] "aXb".data none
          [some "X".data]).markdown) ∧
    (∃ qs, (pdfConvert [(extractPagesKey, PyVal.pyBool true)] true [some " a ".data]
        " a ".data).pages = some qs ∧
      List.intercalate nlnl (qs.map PageInfo.content) =
        (pdfConvert [(extractPagesKey, PyVal.pyBool true)] true [some " a ".data]
          " a ".data).markdown) :=
  C1_concatenation_invariant [(extractPagesKey, PyVal.pyBool true)] "aXb".data none
    [some "X".data] true [some " a ".data] " a ".data (by decide)

/-- C2: every pages list returned by either adapter's convert is numbered
exactly 1, 2, ..., N in sequence order, with no gaps, duplicates or
reordering. -/
theorem C2_sequential_numbering (kwargs : List (String × PyVal)) (md : List Char)
    (title : Option (List Char)) (breaks : List (Option (List Char)))
    (listOk : Bool) (texts : List (Option (List Char))) (fullText : List Char)
    (ps qs : List PageInfo)
    (h1 : (docxConvertBody kwargs md title breaks).pages = some ps)
    (h2 : (pdfConvert kwargs listOk texts fullText).pages = some qs) :
    ps.map PageInfo.page_number = List.range' 1 ps.length ∧
    qs.map PageInfo.page_number = List.range' 1 qs.length := by
  have e1 := docxConvertBody_pages kwargs md title breaks ps h1
  have e2 := pdfConvert_pages kwargs listOk texts fullText qs h2
  subst e1
  subst e2
  exact ⟨splitAux_numbers md _ 0 1, pdfExtractPages_numbers listOk texts fullText⟩

/-- Witness for C2 at a concrete DOCX and PDF conversion. -/
theorem C2_sequential_numbering_witness :
    [(⟨1, "a".data⟩ : PageInfo), ⟨2, "Xb".data⟩].map PageInfo.page_number =
      List.range' 1 ([(⟨1, "a".data⟩ : PageInfo), ⟨2, "Xb".data⟩].length) ∧
    [(⟨1, "a".data⟩ : PageInfo)].map PageInfo.page_number =
      List.range' 1 ([(⟨1, "a".data⟩ : PageInfo)].length) :=
  C2_sequential_numbering [(extractPagesKey, PyVal.pyBool true)] "aXb".data none
    [some "X".data] true [some " a ".data] "zz".data
    [⟨1, "a".data⟩, ⟨2, "Xb".data⟩] [⟨1, "a".data⟩] (by decide) (by decide)

/-- C3 counterexample: for the PDF adapter the markdown is not preserved by
pagination. A one-page PDF whose raw page text is `"a\x0c"` (pdfminer's
per-page device output ends with a form feed, and the whole-document
extraction is the concatenation of the per-page outputs) yields markdown
`"a\x0c"` without pagination but `"a"` (the stripped page text) with it. -/
theorem C3_markdown_preserved_counterexample :
    (pdfConvert [] true [some "a\x0c".data] "a\x0c".data).markdown ≠
      (pdfConvert [(extractPagesKey, PyVal.pyBool true)] true [some "a\x0c".data]
        "a\x0c".data).markdown := by
  decide

/-- C3 amended: for the DOCX adapter, markdown and title are identical under
any option settings; for the PDF adapter the title is identical (none in
both paths) but with `extract_pages` truthy the markdown is the
`"\n\n"`-join of the stripped per-page texts, which need not equal the
whole-document extraction returned when `extract_pages` is falsy. -/
theorem C3_markdown_preserved_amended (kwargs kwargs2 : List (String × PyVal))
    (md : List Char) (title : Option (List Char)) (breaks : List (Option (List Char)))
    (listOk : Bool) (texts : List (Option (List Char))) (fullText : List Char) :
    (docxConvertBody kwargs md title breaks).markdown =
      (docxConvertBody kwargs2 md title breaks).markdown ∧
    (docxConvertBody kwargs md title breaks).title =
      (docxConvertBody kwargs2 md title breaks).title ∧
    (pdfConvert kwargs listOk texts fullText).title =
      (pdfConvert kwargs2 listOk texts fullText).title ∧
    (pyTruthy (kwargsGet kwargs extractPagesKey (PyVal.pyBool false)) = true →
      (pdfConvert kwargs listOk texts fullText).markdown =
        List.intercalate nlnl ((pdfExtractPages listOk texts fullText).map PageInfo.content)) := by
  refine ⟨?_, ?_, ?_, ?_⟩
  · unfold docxConvertBody
    split <;> split <;> rfl
  · unfold docxConvertBody
    split <;> split <;> rfl
  · unfold pdfConvert
    split <;> split <;> rfl
  · intro htruthy
    simp [pdfConvert, htruthy]

/-- Witness for C3 amended at a concrete conversion. -/
theorem C3_markdown_preserved_amended_witness :
    (docxConvertBody [(extractPagesKey, PyVal.pyBool true)] "ab".data none []).markdown =
      (docxConvertBody [] "ab".data none []).markdown ∧
    (docxConvertBody [(extractPagesKey, PyVal.pyBool true)] "ab".data none []).title =
      (docxConvertBody [] "ab".data none []).title ∧
    (pdfConvert [(extractPagesKey, PyVal.pyBool true)] true [some " a ".data] " a ".data).title =
      (pdfConvert [] true [some " a ".data] " a ".data).title ∧
    (pyTruthy (kwargsGet [(extractPagesKey, PyVal.pyBool true)] extractPagesKey
        (PyVal.pyBool false)) = true →
      (pdfConvert [(extractPagesKey, PyVal.pyBool true)] true [some " a ".data]
          " a ".data).markdown =
        List.intercalate nlnl ((pdfExtractPages true [some " a ".data] " a ".data).map
          PageInfo.content)) :=
  C3_markdown_preserved_amended [(extractPagesKey, PyVal.pyBool true)] [] "ab".data none []
    true [some " a ".data] " a ".data

/-- C4: `extract_pages` absent, `False`, `None` or `0` gives `pages = none`;
`True` or `1` gives a non-`none` pages field, for both adapters. -/
theorem C4_truthiness_coercion (md : List Char) (title : Option (List Char))
    (breaks : List (Option (List Char))) (listOk : Bool)
    (texts : List (Option (List Char))) (fullText : List Char) :
    ((docxConvertBody [] md title breaks).pages = none ∧
     (docxConvertBody [(extractPagesKey, PyVal.pyBool false)] md title breaks).pages = none ∧
     (docxConvertBody [(extractPagesKey, PyVal.pyNone)] md title breaks).pages = none ∧
     (docxConvertBody [(extractPagesKey, PyVal.pyInt 0)] md title breaks).pages = none ∧
     (docxConvertBody [(extractPagesKey, PyVal.pyBool true)] md title breaks).pages ≠ none ∧
     (docxConvertBody [(extractPagesKey, PyVal.pyInt 1)] md title breaks).pages ≠ none) ∧
    ((pdfConvert [] listOk texts fullText).pages = none ∧
     (pdfConvert [(extractPagesKey, PyVal.pyBool false)] listOk texts fullText).pages = none ∧
     (pdfConvert [(extractPagesKey, PyVal.pyNone)] listOk texts fullText).pages = none ∧
     (pdfConvert [(extractPagesKey, PyVal.pyInt 0)] listOk texts fullText).pages = none ∧
     (pdfConvert [(extractPagesKey, PyVal.pyBool true)] listOk texts fullText).pages ≠ none ∧
     (pdfConvert [(extractPagesKey, PyVal.pyInt 1)] listOk texts fullText).pages ≠ none) := by
  have hb : pyTruthy (kwargsGet [(extractPagesKey, PyVal.pyBool true)] extractPagesKey
      (PyVal.pyBool false)) = true := rfl
  have hi : pyTruthy (kwargsGet [(extractPagesKey, PyVal.pyInt 1)] extractPagesKey
      (PyVal.pyBool false)) = true := rfl
  refine ⟨⟨rfl, rfl, rfl, rfl, ?_, ?_⟩, ⟨rfl, rfl, rfl, rfl, ?_, ?_⟩⟩
  · simp [docxConvertBody, hb]
  · simp [docxConvertBody, hi]
  · simp [pdfConvert, hb]
  · simp [pdfConvert, hi]

/-- C5 counterexample: passing the legacy `return_pages` key with a truthy
value (and no `extract_pages`) to either adapter's convert leaves the pages
field `none`: the converters read only `extract_pages`. -/
theorem C5_return_pages_counterexample :
    (docxConvertBody [(returnPagesKey, PyVal.pyBool true)] "ab".data none []).pages = none ∧
    (pdfConvert [(returnPagesKey, PyVal.pyBool true)] true [some "a".data] "a".data).pages =
      none :=
  ⟨rfl, rfl⟩

/-- C5 amended: the adapters do not recognize `return_pages`; a conversion
given only that key behaves exactly as one given no options at all, and its
pages field is `none`, for any value of the key and both adapters. -/
theorem C5_return_pages_ignored (v : PyVal) (md : List Char) (title : Option (List Char))
    (breaks : List (Option (List Char))) (listOk : Bool)
    (texts : List (Option (List Char))) (fullText : List Char) :
    docxConvertBody [(returnPagesKey, v)] md title breaks =
      docxConvertBody [] md title breaks ∧
    (docxConvertBody [(returnPagesKey, v)] md title breaks).pages = none ∧
    pdfConvert [(returnPagesKey, v)] listOk texts fullText =
      pdfConvert [] listOk texts fullText ∧
    (pdfConvert [(returnPagesKey, v)] listOk texts fullText).pages = none := by
  have h1 : kwargsGet [(returnPagesKey, v)] extractPagesKey (PyVal.pyBool false) =
      PyVal.pyBool false := rfl
  have h0 : kwargsGet [] extractPagesKey (PyVal.pyBool false) = PyVal.pyBool false := rfl
  refine ⟨?_, ?_, ?_, ?_⟩ <;> simp [docxConvertBody, pdfConvert, h1, h0, pyTruthy]

/-- C6: with a stored import failure, each adapter's convert fails with a
missing-dependency error identifying the adapter name, the expected file
extension and the feature name, and carrying the original import failure as
its cause; the match predicate is a total boolean function of the stream
info alone (it takes no dependency state, so dependency absence cannot make
it fail), and adapter construction is not modelled as fallible. -/
theorem C6_missing_dependency (e : ImportFailure) (kwargs : List (String × PyVal))
    (md : List Char) (title : Option (List Char)) (breaks : List (Option (List Char)))
    (listOk : Bool) (texts : List (Option (List Char))) (fullText : List Char)
    (mt ext : Option (List Char)) :
    docxConvertChecked (some e) kwargs md title breaks =
      Except.error (ConversionError.missingDependency "DocxConverter".data ".docx".data
        "docx".data e) ∧
    pdfConvertChecked (some e) kwargs listOk texts fullText =
      Except.error (ConversionError.missingDependency "PdfConverter".data ".pdf".data
        "pdf".data e) ∧
    (docxAccepts mt ext = true ∨ docxAccepts mt ext = false) ∧
    (pdfAccepts mt ext = true ∨ pdfAccepts mt ext = false) :=
  ⟨rfl, rfl, Bool.eq_false_or_eq_true _, Bool.eq_false_or_eq_true _⟩

/-- C7 counterexample: when the per-page pass fails (here on the second
page), the fallback page's content is the *stripped* whole-document
extraction, not the whole-document extraction itself: with full text
`" a "` the single fallback page holds `"a"`. -/
theorem C7_fallback_counterexample :
    pdfExtractPages true [some "x".data, none] " a ".data = [⟨1, "a".data⟩] ∧
    pdfExtractPages true [some "x".data, none] " a ".data ≠ [⟨1, " a ".data⟩] := by
  decide

/-- C7 amended: if any failure occurs during the per-page pass (listing the
pages fails, or any single page's extraction fails), all partial per-page
results are discarded and the result is exactly one page numbered 1 whose
content is the whole-document extraction stripped of leading and trailing
whitespace; the extraction function is total, so no exception reaches the
caller. -/
theorem C7_fallback_amended (listOk : Bool) (texts : List (Option (List Char)))
    (fullText : List Char) (h : listOk = false ∨ none ∈ texts) :
    pdfExtractPages listOk texts fullText = [⟨1, pyStrip fullText⟩] := by
  unfold pdfExtractPages
  rcases h with rfl | hmem
  · rfl
  · have hl := extractPagesLoop_none texts 1 hmem
    cases listOk <;> simp [hl]

/-- Witness for C7 amended at a concrete failing extraction. -/
theorem C7_fallback_amended_witness :
    pdfExtractPages false [] " a ".data = [⟨1, pyStrip " a ".data⟩] :=
  C7_fallback_amended false [] " a ".data (Or.inl rfl)

/-- C8: a marker with no occurrence in the markdown at or after the cursor
is skipped: no page is emitted for it and the walk continues over the
remaining markers with the cursor and next page number unchanged; the
splitter is total, so nothing is raised. -/
theorem C8_marker_not_found (md m : List Char) (ms : List (List Char)) (cur pn : Nat)
    (h : str_find md m cur = none) :
    splitAux md (m :: ms) cur pn = splitAux md ms cur pn := by
  simp only [splitAux, h]

/-- Witness for C8 at a concrete undetectable marker. -/
theorem C8_marker_not_found_witness :
    splitAux "ab".data ["zz".data, "b".data] 0 1 = splitAux "ab".data ["b".data] 0 1 :=
  C8_marker_not_found "ab".data "zz".data ["b".data] 0 1 (by decide)

/-- C9 counterexample: with an empty markdown string and zero soft page
breaks the splitter returns an empty pages list, not a single page record
covering the (empty) document. -/
theorem C9_single_page_counterexample :
    split_markdown_by_following_text [] [] = [] ∧
    split_markdown_by_following_text [] [] ≠ [⟨1, []⟩] := by
  decide

/-- C9 amended: when the marker sequence is empty or no marker occurs in
the markdown, the result is a single page numbered 1 containing the whole
markdown if the markdown is nonempty, and an empty pages list if the
markdown is the empty string. -/
theorem C9_single_page_amended (md : List Char) (fts : List (List Char))
    (h : ∀ m ∈ fts, str_find md m 0 = none) :
    split_markdown_by_following_text md fts =
      if md = [] then [] else [⟨1, md⟩] := by
  unfold split_markdown_by_following_text
  induction fts with
  | nil =>
    simp only [splitAux]
    rcases eq_or_ne md [] with rfl | hne
    · simp
    · have hpos : 0 < md.length := List.length_pos.mpr hne
      rw [if_neg hne, if_pos hpos, List.drop_zero]
  | cons m ms ih =>
    have hm := h m (List.mem_cons_self m ms)
    simp only [splitAux, hm]
    exact ih (fun x hx => h x (List.mem_cons_of_mem m hx))

/-- Witness for C9 amended: one undetectable break over nonempty markdown. -/
theorem C9_single_page_amended_witness :
    split_markdown_by_following_text "ab".data ["zz".data] =
      if "ab".data = ([] : List Char) then [] else [⟨1, "ab".data⟩] :=
  C9_single_page_amended "ab".data ["zz".data] (by decide)

/-- C10: every page returned by the PDF extraction (per-page pass or
fallback) has content with no leading or trailing whitespace; equivalently,
the stored content is a fixpoint of stripping, so an extraction yielding
only whitespace is stored as empty content. -/
theorem C10_pdf_pages_stripped (listOk : Bool) (texts : List (Option (List Char)))
    (fullText : List Char) (pg : PageInfo)
    (h : pg ∈ pdfExtractPages listOk texts fullText) :
    noEdgeSpace pg.content = true ∧ pyStrip pg.content = pg.content := by
  obtain ⟨t, ht⟩ := pdfExtractPages_content listOk texts fullText pg h
  rw [ht]
  exact ⟨noEdgeSpace_pyStrip t, pyStrip_noEdge (pyStrip t) (noEdgeSpace_pyStrip t)⟩

/-- Witness for C10 at a concrete page of a concrete extraction. -/
theorem C10_pdf_pages_stripped_witness :
    noEdgeSpace (PageInfo.content ⟨1, "a".data⟩) = true ∧
    pyStrip (PageInfo.content ⟨1, "a".data⟩) = PageInfo.content ⟨1, "a".data⟩ :=
  C10_pdf_pages_stripped true [some " a ".data] "zz".data ⟨1, "a".data⟩ (by decide)

end Markitdown
